import Mathlib

/-!
Verification of the match-reconciliation API route of the rift-reunion
repository (`src/routes/api/compare.ts`).

The development shallowly embeds the route's logic:

* `fetchGo` / `fetchTrace` model the pagination loop of `getMatchHistory`
  (lines 42-86 of the source).  The upstream is modelled as the list of
  responses it will hand to successive fetches; each loop iteration that
  issues a request consumes the head of that list.
* `regionToRouting` / `routeRegion` model the routing lookup with its
  `|| "americas"` fallback (lines 11-26).
* `projectLol` / `projectTft` model the mode-aware projection of a raw
  match record into a summary (lines 155-207), including the JavaScript
  semantics of optional chaining (`?.` becomes `Option.bind`) and of a
  property access on `undefined` (a thrown `TypeError`, modelled with
  `Except.error`).
* `handlerCore` / `handler` model the `POST` handler (lines 113-222):
  body destructuring with the `mode = "lol"` default, `split("#")`
  validation, account resolution, history fetches, the ordered
  intersection `sharedMatchIds`, the sequential detail loop, the
  projection pass, and the outer try/catch that turns a thrown error
  into a 500 response.
-/

set_option autoImplicit false

namespace RiftReunion

/-! ### Upstream responses for the match-history pagination loop -/

/-- One upstream response to a match-history page request: a successful
JSON array of match ids, an HTTP 429 rate-limit response, or any other
non-success response (carrying the status text that ends up in the thrown
error message). -/
inductive UpstreamResp where
  | ok (ids : List String)
  | rateLimited
  | failed (statusText : String)
  deriving DecidableEq, Repr

/-- Outcome of the pagination loop: the gathered id list, a thrown error,
or exhaustion of the modelled response stream (the loop would issue yet
another request). -/
inductive FetchResult where
  | done (ids : List String)
  | error (msg : String)
  | outOfResponses
  deriving DecidableEq, Repr

/-- The source's `batchSize` constant (line 46). -/
def batchSize : Nat := 100

/-- The source's backoff delay after a 429, in milliseconds (line 62). -/
def rateLimitBackoffMs : Nat := 2000

/-- The source's pacing delay between successful batches, in milliseconds
(line 82). -/
def interBatchDelayMs : Nat := 100

/-- The pagination loop of `getMatchHistory` (source lines 50-85).
`count` is the requested maximum (`maxCount`), `start` the current offset,
`acc` the ids gathered so far (`allMatches`).  Each iteration that passes
the `start < count` guard consumes the next upstream response:
a 429 loops again without advancing `start`; any other non-success throws;
an empty batch breaks; a short batch is appended and breaks; a full batch
is appended and the offset advances. -/
def fetchGo (count : Nat) : List UpstreamResp → Nat → List String → FetchResult
  | [], start, acc => if start < count then .outOfResponses else .done acc
  | r :: rest, start, acc =>
    if start < count then
      match r with
      | .rateLimited => fetchGo count rest start acc
      | .failed statusText =>
          .error ("Failed to fetch match history: " ++ statusText)
      | .ok ms =>
        if ms.length = 0 then .done acc
        else if ms.length < min batchSize (count - start) then .done (acc ++ ms)
        else fetchGo count rest (start + min batchSize (count - start)) (acc ++ ms)
    else .done acc

/-- Observable events of one run of the pagination loop: the page requests
it issues (offset and requested count) and the delays it sleeps. -/
inductive FetchEvent where
  | request (start count : Nat)
  | sleep (ms : Nat)
  deriving DecidableEq, Repr

/-- The trace of requests and sleeps produced by the pagination loop on a
given upstream response stream (same control flow as `fetchGo`). -/
def fetchTrace (count : Nat) : List UpstreamResp → Nat → List FetchEvent
  | [], _ => []
  | r :: rest, start =>
    if start < count then
      .request start (min batchSize (count - start)) ::
      match r with
      | .rateLimited => .sleep rateLimitBackoffMs :: fetchTrace count rest start
      | .failed _ => []
      | .ok ms =>
        if ms.length = 0 then []
        else if ms.length < min batchSize (count - start) then []
        else .sleep interBatchDelayMs :: fetchTrace count rest (start + min batchSize (count - start))
    else []

/-- The page requests (offset, requested count) a run issues, in order. -/
def fetchCalls (count : Nat) (resps : List UpstreamResp) (start : Nat) : List (Nat × Nat) :=
  (fetchTrace count resps start).filterMap fun e =>
    match e with
    | .request s c => some (s, c)
    | .sleep _ => none

/-- `getMatchHistory` (source lines 42-86) as a function of the upstream
response stream and the `count` cap: run the pagination loop from offset 0
with an empty accumulator. -/
def getMatchHistory (responses : List UpstreamResp) (count : Nat) : FetchResult :=
  fetchGo count responses 0 []

/-- Requests issued by `getMatchHistory`. -/
def getMatchHistoryCalls (responses : List UpstreamResp) (count : Nat) : List (Nat × Nat) :=
  fetchCalls count responses 0

/-- Erase every rate-limit response from an upstream stream: the stream an
upstream "that never rate-limits" would serve. -/
def drop429 (resps : List UpstreamResp) : List UpstreamResp :=
  resps.filter fun r => r ≠ .rateLimited

/-- Sample distinct match ids `start, start+1, ...` used to instantiate
upstream batches in witnesses. -/
def sampleIds (start n : Nat) : List String :=
  (List.range n).map fun i => Nat.repr (start + i)

/-! ### Region routing (source lines 11-26) -/

/-- The `regionToRouting` table (source lines 11-23). -/
def regionToRouting : List (String × String) :=
  [("na1", "americas"), ("br1", "americas"), ("la1", "americas"), ("la2", "americas"),
   ("euw1", "europe"), ("eun1", "europe"), ("tr1", "europe"), ("ru", "europe"),
   ("kr", "asia"), ("jp1", "asia"), ("oc1", "sea")]

/-- `regionToRouting[region] || "americas"` (source lines 26, 43, 89). -/
def routeRegion (region : String) : String :=
  (regionToRouting.lookup region).getD "americas"

/-! ### Raw upstream match records and the mode-aware projection

A raw match record is untyped JSON; every field can be absent.  Reading a
property of an absent (`undefined`) object throws a `TypeError` in the
source, which the route's try/catch turns into a 500 response; the
optional-chained reads (`?.`) tolerate absence instead.  Absent leaf
values are `Option.none`. -/

/-- One entry of a TFT participant's `traits` array. -/
structure RawTrait where
  name : Option String
  deriving DecidableEq, Repr

/-- One entry of `info.participants`, holding the fields either
projection branch reads. -/
structure RawParticipant where
  puuid : Option String
  championName : Option String
  teamId : Option Int
  placement : Option Int
  traits : Option (List RawTrait)
  deriving DecidableEq, Repr

/-- The `metadata` object of a raw match record. -/
structure RawMetadata where
  matchId : Option String
  match_id : Option String
  deriving DecidableEq, Repr

/-- The `info` object of a raw match record. -/
structure RawInfo where
  gameMode : Option String
  gameStartTimestamp : Option Int
  gameDuration : Option Int
  tft_set_number : Option Int
  game_datetime : Option Int
  game_length : Option Int
  participants : Option (List RawParticipant)
  deriving DecidableEq, Repr

/-- A raw upstream match record (`MatchDetail`). -/
structure RawMatch where
  metadata : Option RawMetadata
  info : Option RawInfo
  deriving DecidableEq, Repr

/-- Reading a property of `undefined`: yields the value when the object is
present, throws a `TypeError` otherwise. -/
def jsGet {α : Type} : Option α → Except String α
  | some a => .ok a
  | none => .error "Cannot read properties of undefined"

/-- `formatDuration` (source lines 107-111): `Math.floor(seconds / 60)`
minutes and `seconds % 60` seconds (JavaScript remainder). -/
def formatDuration (seconds : Int) : String :=
  toString (Int.fdiv seconds 60) ++ "m " ++ toString (Int.tmod seconds 60) ++ "s"

/-- `formatDuration` applied to a possibly-absent number: on `undefined`
the JavaScript arithmetic yields `NaN` and the template renders
`"NaNm NaNs"`. -/
def jsDuration : Option Int → String
  | some s => formatDuration s
  | none => "NaNm NaNs"

/-- Classic-mode per-player stats of a summary (source lines 196-203). -/
structure LolStats where
  champion : Option String
  team : Option Int
  deriving DecidableEq, Repr

/-- Auto-battler per-player stats of a summary (source lines 171-178). -/
structure TftStats where
  placement : Option Int
  traits : String
  deriving DecidableEq, Repr

/-- A classic-mode `MatchSummary` (source lines 190-205). -/
structure LolSummary where
  matchId : Option String
  gameMode : Option String
  timestamp : Option Int
  duration : String
  player1 : LolStats
  player2 : LolStats
  deriving DecidableEq, Repr

/-- An auto-battler `MatchSummary` (source lines 165-180). -/
structure TftSummary where
  matchId : Option String
  gameMode : String
  timestamp : Option Int
  duration : String
  player1 : TftStats
  player2 : TftStats
  deriving DecidableEq, Repr

/-- A projected match summary, classic or auto-battler shaped. -/
inductive MatchSummary where
  | lol (s : LolSummary)
  | tft (s : TftSummary)
  deriving DecidableEq, Repr

/-- The timestamp field of a summary, whichever branch produced it. -/
def summaryTimestamp : MatchSummary → Option Int
  | .lol s => s.timestamp
  | .tft s => s.timestamp

/-- Stated from the spec's words, for comparison with the code: "timestamp
(epoch millis or seconds — mode-dependent, normalized to millis at the
projection boundary)" — a normalization that multiplies a seconds-unit
upstream value by 1000 and passes a millis-unit value through. -/
def spec_normalizedTimestampMillis (unitIsSeconds : Bool) (raw : Int) : Int :=
  if unitIsSeconds then raw * 1000 else raw

/-- `participants.find(p => p.puuid === puuid)` for a given puuid: the
first entry whose (possibly absent) `puuid` field equals it. -/
def findParticipant (puuid : String) : List RawParticipant → Option RawParticipant
  | [] => none
  | p :: rest => if p.puuid = some puuid then some p else findParticipant puuid rest

/-- `player?.traits?.slice(0, 3).map(t => t.name).join(", ") || "N/A"`
(source lines 173, 177): an absent participant or traits array, and an
empty join, fall back to `"N/A"`; absent trait names render as the empty
string inside the join. -/
def tftTraitsOf (d : Option RawParticipant) : String :=
  match d.bind (fun p => p.traits) with
  | none => "N/A"
  | some ts =>
    let joined := String.intercalate ", " ((ts.take 3).map fun t => t.name.getD "")
    if joined = "" then "N/A" else joined

/-- `match.info.tft_set_number ? `Set n` : "TFT"` (source line 167):
`0` is falsy in JavaScript. -/
def tftGameMode (setNumber : Option Int) : String :=
  match setNumber with
  | some n => if n = 0 then "TFT" else "Set " ++ toString n
  | none => "TFT"

/-- The classic-mode projection branch (source lines 181-206).  The two
participant lookups run first (throwing if `info` or `participants` is
absent), then the summary literal is built, reading `metadata.matchId`
(throwing if `metadata` is absent). -/
def projectLol (puuid1 puuid2 : String) (m : RawMatch) : Except String MatchSummary :=
  match jsGet m.info with
  | .error e => .error e
  | .ok info =>
  match jsGet info.participants with
  | .error e => .error e
  | .ok parts =>
    let player1Data := findParticipant puuid1 parts
    let player2Data := findParticipant puuid2 parts
    match jsGet m.metadata with
    | .error e => .error e
    | .ok md =>
      .ok (.lol
        { matchId := md.matchId
          gameMode := info.gameMode
          timestamp := info.gameStartTimestamp
          duration := jsDuration info.gameDuration
          player1 := { champion := player1Data.bind fun p => p.championName
                       team := player1Data.bind fun p => p.teamId }
          player2 := { champion := player2Data.bind fun p => p.championName
                       team := player2Data.bind fun p => p.teamId } })

/-- The auto-battler projection branch (source lines 156-180). -/
def projectTft (puuid1 puuid2 : String) (m : RawMatch) : Except String MatchSummary :=
  match jsGet m.info with
  | .error e => .error e
  | .ok info =>
  match jsGet info.participants with
  | .error e => .error e
  | .ok parts =>
    let player1Data := findParticipant puuid1 parts
    let player2Data := findParticipant puuid2 parts
    match jsGet m.metadata with
    | .error e => .error e
    | .ok md =>
      .ok (.tft
        { matchId := md.match_id
          gameMode := tftGameMode info.tft_set_number
          timestamp := info.game_datetime
          duration := jsDuration info.game_length
          player1 := { placement := player1Data.bind fun p => p.placement
                       traits := tftTraitsOf player1Data }
          player2 := { placement := player2Data.bind fun p => p.placement
                       traits := tftTraitsOf player2Data } })

/-- The mode dispatch of the projection (source line 156). -/
def projectMatch (mode puuid1 puuid2 : String) (m : RawMatch) : Except String MatchSummary :=
  if mode = "tft" then projectTft puuid1 puuid2 m else projectLol puuid1 puuid2 m

/-- `mode === "tft" ? "tft" : "lol"` — the path segment selecting the
game's API family (source lines 48, 90). -/
def gameType (mode : String) : String :=
  if mode = "tft" then "tft" else "lol"

/-- `mode === "tft" ? "v1" : "v5"` — the match-detail endpoint version
(source line 91). -/
def matchVersion (mode : String) : String :=
  if mode = "tft" then "v1" else "v5"

/-! ### The POST handler (source lines 113-222) -/

/-- A resolved Riot account (source lines 5-9). -/
structure RiotAccount where
  puuid : String
  gameName : String
  tagLine : String
  deriving DecidableEq, Repr

/-- The upstream world the route runs against, abstracted at the
granularity of the three fetch helpers.  Each function takes exactly the
data the source puts into the request URL: the routing cluster, the
mode-derived path segments, and the identifying key; a `.error` is a
thrown error (failed fetch), a `.ok` the parsed JSON. -/
structure ApiEnv where
  account : String → String → String → Except String RiotAccount
  history : String → String → String → Nat → Except String (List String)
  details : String → String → String → String → Except String RawMatch

/-- `getAccountByRiotId` (source lines 25-40): resolves via the account
URL built from the routing cluster, game name and tag line. -/
def accountByRiotId (env : ApiEnv) (gameName tagLine region : String) :
    Except String RiotAccount :=
  env.account (routeRegion region) gameName tagLine

/-- The history fetch as the handler sees it (source line 143): the URL
depends on the region's routing cluster, the mode's game type, the puuid
and the cap. -/
def historyFor (env : ApiEnv) (puuid region mode : String) (count : Nat) :
    Except String (List String) :=
  env.history (routeRegion region) (gameType mode) puuid count

/-- `getMatchDetails` (source lines 88-105): the URL depends on the
routing cluster, game type, endpoint version and match id. -/
def detailsFor (env : ApiEnv) (matchId region mode : String) :
    Except String RawMatch :=
  env.details (routeRegion region) (gameType mode) (matchVersion mode) matchId

/-- Helper for `jsSplitHash`: walk the characters, cutting at every `#`;
`cur` holds the current segment's characters in reverse. -/
def splitHashAux : List Char → List Char → List String
  | [], cur => [String.mk cur.reverse]
  | c :: cs, cur =>
    if c = '#' then String.mk cur.reverse :: splitHashAux cs []
    else splitHashAux cs (c :: cur)

/-- JavaScript's `s.split("#")` (source lines 127-128): the segments of
`s` between occurrences of `#`; `""` splits to `[""]`, `"a##b"` to
`["a", "", "b"]`. -/
def jsSplitHash (s : String) : List String :=
  splitHashAux s.data []

/-- A parsed request body (`ctx.req.json()`); absent keys are `none`. -/
structure RequestBody where
  player1 : Option String
  player2 : Option String
  region : String
  mode : Option String
  deriving DecidableEq, Repr

/-- The player object of the success payload (source lines 210-211):
game name and tag line only. -/
structure DisplayAccount where
  gameName : String
  tagLine : String
  deriving DecidableEq, Repr

/-- The route's JSON response: an error response with its HTTP status and
message, or the 200 comparison payload. -/
inductive ApiResponse where
  | errorResp (status : Nat) (msg : String)
  | success (player1 player2 : DisplayAccount) (matchData : List MatchSummary)
  deriving DecidableEq, Repr

/-- `matches1.filter(id => matches2.includes(id))` (source line 146): the
ordered intersection, order taken from player 1's list. -/
def sharedMatchIds (matches1 matches2 : List String) : List String :=
  matches1.filter fun id => matches2.contains id

/-- Sequential effectful map, aborting at the first thrown error: the
detail-fetch `for` loop (source lines 149-153) and the projection `.map`
(source line 155) both have this shape. -/
def mapMEx {α β : Type} (f : α → Except String β) : List α → Except String (List β)
  | [] => .ok []
  | a :: l =>
    match f a with
    | .error e => .error e
    | .ok b =>
      match mapMEx f l with
      | .error e => .error e
      | .ok bs => .ok (b :: bs)

/-- The message of the `TypeError` thrown by `player.split("#")` when the
player key is absent from the body. -/
def undefinedSplitMsg : String := "Cannot read properties of undefined (reading 'split')"

/-- The body of the handler's `try` block (source lines 123-213).
A `.error` is an exception escaping to the `catch`; a `.ok` is a built
response (including the 400 validation response). -/
def handlerCore (env : ApiEnv) (body : RequestBody) : Except String ApiResponse :=
  let mode := body.mode.getD "lol"
  match body.player1 with
  | none => .error undefinedSplitMsg
  | some player1 =>
  match body.player2 with
  | none => .error undefinedSplitMsg
  | some player2 =>
    let parts1 := jsSplitHash player1
    let parts2 := jsSplitHash player2
    let gameName1 := parts1.getD 0 ""
    let tagLine1 := parts1.getD 1 ""
    let gameName2 := parts2.getD 0 ""
    let tagLine2 := parts2.getD 1 ""
    if gameName1 = "" ∨ tagLine1 = "" ∨ gameName2 = "" ∨ tagLine2 = "" then
      .ok (.errorResp 400 "Invalid player format. Use: Name#TAG")
    else
      match accountByRiotId env gameName1 tagLine1 body.region with
      | .error e => .error e
      | .ok account1 =>
      match accountByRiotId env gameName2 tagLine2 body.region with
      | .error e => .error e
      | .ok account2 =>
      match historyFor env account1.puuid body.region mode 500 with
      | .error e => .error e
      | .ok matches1 =>
      match historyFor env account2.puuid body.region mode 500 with
      | .error e => .error e
      | .ok matches2 =>
        match mapMEx (fun id => detailsFor env id body.region mode)
            (sharedMatchIds matches1 matches2) with
        | .error e => .error e
        | .ok sharedMatches =>
        match mapMEx (projectMatch mode account1.puuid account2.puuid) sharedMatches with
        | .error e => .error e
        | .ok matchData =>
          .ok (.success ⟨account1.gameName, account1.tagLine⟩
            ⟨account2.gameName, account2.tagLine⟩ matchData)

/-- The full POST handler (source lines 113-222): the API-key guard, the
`try` body, and the `catch` that turns a thrown error's message into a
500 response (`error.message || "An error occurred"`). -/
def handler (hasApiKey : Bool) (env : ApiEnv) (body : RequestBody) : ApiResponse :=
  if !hasApiKey then .errorResp 500 "Riot API key not configured"
  else
    match handlerCore env body with
    | .ok r => r
    | .error msg => .errorResp 500 (if msg = "" then "An error occurred" else msg)

/-! ### Puuid renaming (for the puuid-confidentiality claim)

The renaming replaces every puuid `p` of the upstream world by `σ p`:
resolved accounts carry the renamed puuid, histories are keyed by renamed
puuids (`ρ` undoes `σ`), and the participant entries of the fetched match
records carry renamed puuids. -/

/-- Rename the puuid a participant entry carries. -/
def renameParticipant (σ : String → String) (p : RawParticipant) : RawParticipant :=
  { p with puuid := p.puuid.map σ }

/-- Rename every participant puuid of a raw match record. -/
def renameMatch (σ : String → String) (m : RawMatch) : RawMatch :=
  { m with info := m.info.map fun i =>
      { i with participants := i.participants.map fun ps => ps.map (renameParticipant σ) } }

/-- Rename the puuid of a resolved account. -/
def renameAccount (σ : String → String) (a : RiotAccount) : RiotAccount :=
  { a with puuid := σ a.puuid }

/-- The upstream world `e` with every puuid renamed by `σ` (with `ρ` the
inverse renaming, used to key history lookups). -/
def renameEnv (σ ρ : String → String) (e : ApiEnv) : ApiEnv where
  account := fun routing g t => (e.account routing g t).map (renameAccount σ)
  history := fun routing gt p count => e.history routing gt (ρ p) count
  details := fun routing gt v id => (e.details routing gt v id).map (renameMatch σ)

/-- An injective puuid renaming used by the confidentiality witness:
prepend an `x`. -/
def consX (s : String) : String := String.mk ('x' :: s.data)

/-- Left inverse of `consX`: drop the first character. -/
def dropHead (s : String) : String := String.mk s.data.tail

/-! ### Concrete instances used by witnesses and counterexamples -/

/-- A well-formed classic-mode match record between puuids `PU1` and
`PU2`, with metadata id `id`. -/
def sampleLolMatch (id : String) : RawMatch where
  metadata := some { matchId := some id, match_id := none }
  info := some
    { gameMode := some "CLASSIC"
      gameStartTimestamp := some 1700000000000
      gameDuration := some 1845
      tft_set_number := none
      game_datetime := none
      game_length := none
      participants := some
        [{ puuid := some "PU1", championName := some "Ahri", teamId := some 100,
           placement := none, traits := none },
         { puuid := some "PU2", championName := some "Garen", teamId := some 200,
           placement := none, traits := none }] }

/-- An auto-battler match record whose `game_datetime` is the small
number 5. -/
def sampleTftMatch : RawMatch where
  metadata := some { matchId := none, match_id := some "TFT1" }
  info := some
    { gameMode := none
      gameStartTimestamp := none
      gameDuration := none
      tft_set_number := some 11
      game_datetime := some 5
      game_length := some 2000
      participants := some
        [{ puuid := some "PU1", championName := none, teamId := none,
           placement := some 3, traits := some [{ name := some "Sorcerer" }] }] }

/-- A malformed match record: `metadata` and `info` present, but the
`participants` array absent. -/
def noParticipantsMatch : RawMatch where
  metadata := some { matchId := some "B", match_id := none }
  info := some
    { gameMode := some "CLASSIC"
      gameStartTimestamp := some 1700000000000
      gameDuration := some 1845
      tft_set_number := none
      game_datetime := none
      game_length := none
      participants := none }

/-- An upstream in which Alice resolves to `PU1` with history
`[A,B,C,D]`, Bob to `PU2` with history `[X,B,Y,D]`, and every detail
fetch returns the well-formed classic record for the requested id. -/
def sharedEnv : ApiEnv where
  account := fun _ g t =>
    .ok { puuid := if g = "Alice" then "PU1" else "PU2", gameName := g, tagLine := t }
  history := fun _ _ p _ =>
    .ok (if p = "PU1" then ["A", "B", "C", "D"] else ["X", "B", "Y", "D"])
  details := fun _ _ _ id => .ok (sampleLolMatch id)

/-- `sharedEnv` with every detail fetch returning the record lacking a
participants array. -/
def badDetailEnv : ApiEnv where
  account := sharedEnv.account
  history := sharedEnv.history
  details := fun _ _ _ _ => .ok noParticipantsMatch

/-- `sharedEnv` except that Alice resolves to puuid `PU9`, which appears
in no match record's participants array. -/
def missingEnv : ApiEnv where
  account := fun _ g t =>
    .ok { puuid := if g = "Alice" then "PU9" else "PU2", gameName := g, tagLine := t }
  history := fun _ _ p _ =>
    .ok (if p = "PU9" then ["A", "B", "C", "D"] else ["X", "B", "Y", "D"])
  details := fun _ _ _ id => .ok (sampleLolMatch id)

/-- An upstream on which every fetch fails. -/
def failEnv : ApiEnv where
  account := fun _ _ _ => .error "unreachable"
  history := fun _ _ _ _ => .error "unreachable"
  details := fun _ _ _ _ => .error "unreachable"

/-- The standard valid request body used by witnesses. -/
def mainBody : RequestBody where
  player1 := some "Alice#NA1"
  player2 := some "Bob#EUW"
  region := "na1"
  mode := none

/-- The summary the classic projection produces for `sampleLolMatch id`
between `PU1` and `PU2`. -/
def sampleSummary (id : String) : MatchSummary :=
  .lol
    { matchId := some id
      gameMode := some "CLASSIC"
      timestamp := some 1700000000000
      duration := "30m 45s"
      player1 := { champion := some "Ahri", team := some 100 }
      player2 := { champion := some "Garen", team := some 200 } }

/-! ### Lemmas about `mapMEx` -/

theorem mapMEx_ok_length {α β : Type} {f : α → Except String β} :
    ∀ {l : List α} {l2 : List β}, mapMEx f l = .ok l2 → l2.length = l.length := by
  intro l
  induction l with
  | nil =>
    intro l2 h
    cases h
    rfl
  | cons a t ih =>
    intro l2 h
    unfold mapMEx at h
    rcases hfa : f a with e | b <;> rw [hfa] at h
    · cases h
    · rcases hmt : mapMEx f t with e | bs <;> rw [hmt] at h
      · cases h
      · cases h
        simp [ih hmt]

theorem mapMEx_ok_get? {α β : Type} {f : α → Except String β} :
    ∀ {l : List α} {l2 : List β}, mapMEx f l = .ok l2 →
      ∀ {i : Nat} {a : α}, l.get? i = some a →
        ∃ b, f a = .ok b ∧ l2.get? i = some b := by
  intro l
  induction l with
  | nil =>
    intro l2 h i a ha
    simp at ha
  | cons x t ih =>
    intro l2 h i a ha
    unfold mapMEx at h
    rcases hfa : f x with e | b <;> rw [hfa] at h
    · cases h
    · rcases hmt : mapMEx f t with e | bs <;> rw [hmt] at h
      · cases h
      · cases h
        cases i with
        | zero =>
          cases ha
          exact ⟨b, hfa, rfl⟩
        | succ n =>
          exact ih hmt ha

theorem mapMEx_ok_mem {α β : Type} {f : α → Except String β} :
    ∀ {l : List α} {l2 : List β}, mapMEx f l = .ok l2 →
      ∀ {b : β}, b ∈ l2 → ∃ a, a ∈ l ∧ f a = .ok b := by
  intro l
  induction l with
  | nil =>
    intro l2 h b hb
    cases h
    simp at hb
  | cons x t ih =>
    intro l2 h b hb
    unfold mapMEx at h
    rcases hfx : f x with e | bx <;> rw [hfx] at h
    · cases h
    · rcases hmt : mapMEx f t with e | bs <;> rw [hmt] at h
      · cases h
      · cases h
        rcases List.mem_cons.mp hb with hb1 | hb2
        · exact ⟨x, by simp, by rw [hfx, hb1]⟩
        · obtain ⟨a, ha, hfa⟩ := ih hmt hb2
          exact ⟨a, by simp [ha], hfa⟩

/-- Full characterization of the classic projection on a record whose
`metadata`, `info` and `participants` containers are all present. -/
theorem projectLol_eq (q1 q2 : String) (mm : RawMatch)
    (info : RawInfo) (parts : List RawParticipant) (md : RawMetadata)
    (hinfo : mm.info = some info) (hparts : info.participants = some parts)
    (hmd : mm.metadata = some md) :
    projectLol q1 q2 mm = .ok (.lol
      { matchId := md.matchId
        gameMode := info.gameMode
        timestamp := info.gameStartTimestamp
        duration := jsDuration info.gameDuration
        player1 := { champion := (findParticipant q1 parts).bind fun p => p.championName
                     team := (findParticipant q1 parts).bind fun p => p.teamId }
        player2 := { champion := (findParticipant q2 parts).bind fun p => p.championName
                     team := (findParticipant q2 parts).bind fun p => p.teamId } }) := by
  simp [projectLol, jsGet, hinfo, hparts, hmd]

/-- Full characterization of the auto-battler projection on a record
whose `metadata`, `info` and `participants` containers are all present. -/
theorem projectTft_eq (q1 q2 : String) (mm : RawMatch)
    (info : RawInfo) (parts : List RawParticipant) (md : RawMetadata)
    (hinfo : mm.info = some info) (hparts : info.participants = some parts)
    (hmd : mm.metadata = some md) :
    projectTft q1 q2 mm = .ok (.tft
      { matchId := md.match_id
        gameMode := tftGameMode info.tft_set_number
        timestamp := info.game_datetime
        duration := jsDuration info.game_length
        player1 := { placement := (findParticipant q1 parts).bind fun p => p.placement
                     traits := tftTraitsOf (findParticipant q1 parts) }
        player2 := { placement := (findParticipant q2 parts).bind fun p => p.placement
                     traits := tftTraitsOf (findParticipant q2 parts) } }) := by
  simp [projectTft, jsGet, hinfo, hparts, hmd]

theorem mapMEx_ok_of_forall {α β : Type} {f : α → Except String β} :
    ∀ {l : List α}, (∀ a ∈ l, ∃ b, f a = .ok b) → ∃ l2, mapMEx f l = .ok l2 := by
  intro l
  induction l with
  | nil => intro _; exact ⟨[], rfl⟩
  | cons x t ih =>
    intro h
    obtain ⟨b, hb⟩ := h x (by simp)
    obtain ⟨bs, hbs⟩ := ih fun a ha => h a (by simp [ha])
    refine ⟨b :: bs, ?_⟩
    unfold mapMEx
    rw [hb, hbs]

theorem mapMEx_map_right {α β γ : Type} (f : α → Except String β) (g : β → γ) :
    ∀ l : List α,
      mapMEx (fun a => (f a).map g) l = (mapMEx f l).map fun bs => bs.map g := by
  intro l
  induction l with
  | nil => rfl
  | cons x t ih =>
    unfold mapMEx
    rw [ih]
    rcases hfx : f x with e | b <;> rcases hmt : mapMEx f t with e2 | bs <;>
      simp [Except.map]

theorem mapMEx_comp_map {α β γ : Type} (g : α → β) (f : β → Except String γ) :
    ∀ l : List α, mapMEx f (l.map g) = mapMEx (fun a => f (g a)) l := by
  intro l
  induction l with
  | nil => rfl
  | cons x t ih =>
    simp only [List.map_cons]
    unfold mapMEx
    rw [ih]

theorem mapMEx_congr {α β : Type} {f g : α → Except String β} :
    ∀ {l : List α}, (∀ a ∈ l, f a = g a) → mapMEx f l = mapMEx g l := by
  intro l
  induction l with
  | nil => intro _; rfl
  | cons x t ih =>
    intro h
    unfold mapMEx
    rw [h x (by simp), ih fun a ha => h a (by simp [ha])]

theorem lookup_eq_none_of_not_mem_keys :
    ∀ {l : List (String × String)} {r : String},
      r ∉ l.map Prod.fst → l.lookup r = none := by
  intro l
  induction l with
  | nil => intro r _; rfl
  | cons p t ih =>
    intro r h
    simp only [List.map_cons, List.mem_cons] at h
    push_neg at h
    obtain ⟨h1, h2⟩ := h
    rcases p with ⟨k, v⟩
    have hk : (r == k) = false := beq_eq_false_iff_ne.mpr (by simpa using h1)
    simp only [List.lookup, hk]
    exact ih h2

/-! ### Lemmas about the pagination loop -/

theorem fetchGo_of_not_lt (count start : Nat) (acc : List String)
    (h : ¬ start < count) :
    ∀ resps : List UpstreamResp, fetchGo count resps start acc = .done acc := by
  intro resps
  cases resps <;> simp [fetchGo, h]

theorem fetchTrace_of_not_lt (count start : Nat) (h : ¬ start < count) :
    ∀ resps : List UpstreamResp, fetchTrace count resps start = [] := by
  intro resps
  cases resps <;> simp [fetchTrace, h]

theorem fetchGo_drop429 (count : Nat) :
    ∀ (resps : List UpstreamResp) (start : Nat) (acc : List String),
      fetchGo count (drop429 resps) start acc = fetchGo count resps start acc := by
  intro resps
  induction resps with
  | nil => intro start acc; rfl
  | cons r rest ih =>
    intro start acc
    by_cases h : start < count
    · cases r with
      | rateLimited =>
        simpa [drop429, List.filter, fetchGo, h] using ih start acc
      | failed statusText =>
        simp [drop429, List.filter, fetchGo, h]
      | ok ms =>
        by_cases h0 : ms.length = 0
        · simp [drop429, List.filter, fetchGo, h, h0]
        · by_cases hlt : ms.length < min batchSize (count - start)
          · simp [drop429, List.filter, fetchGo, h, h0, hlt]
          · simpa [drop429, List.filter, fetchGo, h, h0, hlt] using
              ih (start + min batchSize (count - start)) (acc ++ ms)
    · rw [fetchGo_of_not_lt count start acc h, fetchGo_of_not_lt count start acc h]

/-- C2: on a rate-limit (429) response the pagination loop of
`getMatchHistory` retries the batch after the fixed 2000 ms backoff
(longer than the 100 ms inter-batch pacing), without advancing the offset
and with no retry bound, so the returned id list equals the one an
upstream that never rate-limits would produce (no ids lost, no batch
appended twice); every non-success response other than 429 raises an
error immediately with no retry. -/
theorem c2_rate_limit_retry (count : Nat) (resps rest : List UpstreamResp)
    (start : Nat) (acc : List String) (statusText : String)
    (h : start < count) :
    getMatchHistory (drop429 resps) count = getMatchHistory resps count
    ∧ fetchGo count (drop429 resps) start acc = fetchGo count resps start acc
    ∧ fetchTrace count (.rateLimited :: rest) start
        = .request start (min batchSize (count - start))
          :: .sleep rateLimitBackoffMs :: fetchTrace count rest start
    ∧ interBatchDelayMs < rateLimitBackoffMs
    ∧ fetchGo count (.failed statusText :: rest) start acc
        = .error ("Failed to fetch match history: " ++ statusText) := by
  refine ⟨fetchGo_drop429 count resps 0 [], fetchGo_drop429 count resps start acc,
    ?_, by decide, ?_⟩
  · simp [fetchTrace, h]
  · simp [fetchGo, h]

/-- Witness for C2 at a concrete upstream: a 429 before each of two
batches changes neither the result nor the gathered ids, and a non-429
failure errors out at once. -/
theorem c2_rate_limit_retry_witness :
    getMatchHistory
        (drop429 [.rateLimited, .ok (sampleIds 0 100), .rateLimited, .ok (sampleIds 100 30)]) 250
      = getMatchHistory [.rateLimited, .ok (sampleIds 0 100), .rateLimited, .ok (sampleIds 100 30)] 250
    ∧ fetchGo 250 [UpstreamResp.failed "Forbidden"] 0 []
        = .error ("Failed to fetch match history: " ++ "Forbidden") :=
  ⟨(c2_rate_limit_retry 250
      [.rateLimited, .ok (sampleIds 0 100), .rateLimited, .ok (sampleIds 100 30)]
      [] 0 [] "Forbidden" (by decide)).1,
   (c2_rate_limit_retry 250
      [.rateLimited, .ok (sampleIds 0 100), .rateLimited, .ok (sampleIds 100 30)]
      [] 0 [] "Forbidden" (by decide)).2.2.2.2⟩

/-- C3: with `maxCount = 250` and an upstream serving full batches,
`getMatchHistory` stops after exactly three requests — asking for
`min(100, 250-200) = 50` in the third — and returns exactly 250 ids,
whatever further responses the upstream could have served. -/
theorem c3_pagination_termination (l1 l2 l3 : List String)
    (h1 : l1.length = 100) (h2 : l2.length = 100) (h3 : l3.length = 50)
    (rest : List UpstreamResp) :
    getMatchHistory (.ok l1 :: .ok l2 :: .ok l3 :: rest) 250 = .done (l1 ++ l2 ++ l3)
    ∧ (l1 ++ l2 ++ l3).length = 250
    ∧ getMatchHistoryCalls (.ok l1 :: .ok l2 :: .ok l3 :: rest) 250
        = [(0, 100), (100, 100), (200, 50)] := by
  refine ⟨?_, by simp [h1, h2, h3], ?_⟩
  · simp [getMatchHistory, fetchGo, batchSize, h1, h2, h3, fetchGo_of_not_lt]
  · simp [getMatchHistoryCalls, fetchCalls, fetchTrace, batchSize, h1, h2, h3,
      fetchTrace_of_not_lt]

/-- Witness for C3: concrete full batches of 100, 100 and 50 ids. -/
theorem c3_pagination_termination_witness :
    getMatchHistory
        [.ok (sampleIds 0 100), .ok (sampleIds 100 100), .ok (sampleIds 200 50)] 250
      = .done (sampleIds 0 100 ++ sampleIds 100 100 ++ sampleIds 200 50)
    ∧ (sampleIds 0 100 ++ sampleIds 100 100 ++ sampleIds 200 50).length = 250
    ∧ getMatchHistoryCalls
        [.ok (sampleIds 0 100), .ok (sampleIds 100 100), .ok (sampleIds 200 50)] 250
      = [(0, 100), (100, 100), (200, 50)] :=
  c3_pagination_termination (sampleIds 0 100) (sampleIds 100 100) (sampleIds 200 50)
    (by simp [sampleIds]) (by simp [sampleIds]) (by simp [sampleIds]) []

/-- C4: with `maxCount = 500` and an upstream whose third batch holds only
40 ids (fewer than the 100 requested), `getMatchHistory` stops after
exactly three requests with `100 + 100 + 40 = 240` ids, the third batch
included; an empty batch likewise terminates at once with the ids
gathered so far. -/
theorem c4_pagination_early_stop (l1 l2 l3 l4 : List String)
    (h1 : l1.length = 100) (h2 : l2.length = 100) (h3 : l3.length = 40)
    (h4 : l4.length = 100)
    (rest : List UpstreamResp) :
    getMatchHistory (.ok l1 :: .ok l2 :: .ok l3 :: rest) 500 = .done (l1 ++ l2 ++ l3)
    ∧ (l1 ++ l2 ++ l3).length = 240
    ∧ getMatchHistoryCalls (.ok l1 :: .ok l2 :: .ok l3 :: rest) 500
        = [(0, 100), (100, 100), (200, 100)]
    ∧ getMatchHistory (.ok l4 :: .ok [] :: rest) 500 = .done l4 := by
  refine ⟨?_, by simp [h1, h2, h3], ?_, ?_⟩
  · simp [getMatchHistory, fetchGo, batchSize, h1, h2, h3]
  · simp [getMatchHistoryCalls, fetchCalls, fetchTrace, batchSize, h1, h2, h3]
  · simp [getMatchHistory, fetchGo, batchSize, h4]

/-- C1: when the handler succeeds, its `matches` field has exactly one
summary per element of the ordered intersection of the two players'
returned match-id lists (`sharedMatchIds`: order from player 1's list,
player-2 membership tested per element), in that order — the i-th summary
is the projection of the fetched detail of the i-th shared id.
Instantiated at histories `[A,B,C,D]` and `[X,B,Y,D]` (see the witness)
this yields exactly the two summaries for `B` then `D`. -/
theorem c1_matches_are_ordered_intersection
    (env : ApiEnv) (body : RequestBody) (p1s p2s : String)
    (account1 account2 : RiotAccount) (h1 h2 : List String)
    (d1 d2 : DisplayAccount) (ms : List MatchSummary)
    (hb1 : body.player1 = some p1s) (hb2 : body.player2 = some p2s)
    (ha1 : accountByRiotId env ((jsSplitHash p1s).getD 0 "") ((jsSplitHash p1s).getD 1 "")
        body.region = .ok account1)
    (ha2 : accountByRiotId env ((jsSplitHash p2s).getD 0 "") ((jsSplitHash p2s).getD 1 "")
        body.region = .ok account2)
    (hh1 : historyFor env account1.puuid body.region (body.mode.getD "lol") 500 = .ok h1)
    (hh2 : historyFor env account2.puuid body.region (body.mode.getD "lol") 500 = .ok h2)
    (hres : handler true env body = .success d1 d2 ms) :
    ms.length = (sharedMatchIds h1 h2).length
    ∧ ∀ i id, (sharedMatchIds h1 h2).get? i = some id →
        ∃ m s, detailsFor env id body.region (body.mode.getD "lol") = .ok m
          ∧ projectMatch (body.mode.getD "lol") account1.puuid account2.puuid m = .ok s
          ∧ ms.get? i = some s := by
  have hc : handlerCore env body = .ok (.success d1 d2 ms) := by
    unfold handler at hres
    rcases h : handlerCore env body with e | r <;> rw [h] at hres <;> simp at hres
    rw [hres]
  simp only [handlerCore, hb1, hb2] at hc
  by_cases hv : ((jsSplitHash p1s).getD 0 "" = "" ∨ (jsSplitHash p1s).getD 1 "" = ""
      ∨ (jsSplitHash p2s).getD 0 "" = "" ∨ (jsSplitHash p2s).getD 1 "" = "")
  · rw [if_pos hv] at hc
    simp at hc
  · rw [if_neg hv] at hc
    simp only [ha1, ha2, hh1, hh2] at hc
    rcases hm1 : mapMEx (fun id => detailsFor env id body.region (body.mode.getD "lol"))
        (sharedMatchIds h1 h2) with e | sharedMatches
    · simp [hm1] at hc
    · rcases hm2 : mapMEx (projectMatch (body.mode.getD "lol") account1.puuid account2.puuid)
          sharedMatches with e | matchData
      · simp [hm1, hm2] at hc
      · simp only [hm1, hm2, Except.ok.injEq, ApiResponse.success.injEq] at hc
        obtain ⟨hd1, hd2, hms⟩ := hc
        subst hms
        constructor
        · rw [mapMEx_ok_length hm2, mapMEx_ok_length hm1]
        · intro i id hid
          obtain ⟨m, hfm, hsm⟩ := mapMEx_ok_get? hm1 hid
          obtain ⟨s, hps, hmsi⟩ := mapMEx_ok_get? hm2 hsm
          exact ⟨m, s, hfm, hps, hmsi⟩

/-- Witness for C1: histories `[A,B,C,D]` and `[X,B,Y,D]` give exactly
the summaries for `B` then `D`. -/
theorem c1_matches_are_ordered_intersection_witness :
    [sampleSummary "B", sampleSummary "D"].length
        = (sharedMatchIds ["A", "B", "C", "D"] ["X", "B", "Y", "D"]).length
    ∧ ∀ i id, (sharedMatchIds ["A", "B", "C", "D"] ["X", "B", "Y", "D"]).get? i = some id →
        ∃ m s, detailsFor sharedEnv id mainBody.region (mainBody.mode.getD "lol") = .ok m
          ∧ projectMatch (mainBody.mode.getD "lol") "PU1" "PU2" m = .ok s
          ∧ [sampleSummary "B", sampleSummary "D"].get? i = some s :=
  c1_matches_are_ordered_intersection sharedEnv mainBody "Alice#NA1" "Bob#EUW"
    ⟨"PU1", "Alice", "NA1"⟩ ⟨"PU2", "Bob", "EUW"⟩
    ["A", "B", "C", "D"] ["X", "B", "Y", "D"]
    ⟨"Alice", "NA1"⟩ ⟨"Bob", "EUW"⟩ [sampleSummary "B", sampleSummary "D"]
    rfl rfl rfl rfl rfl rfl (by decide)

/-- C6 (amended): when both player identifiers are present and either
one's split on `#` yields an empty or absent first or second segment, the
handler answers 400 with "Invalid player format. Use: Name#TAG" — and it
does so for every upstream world, i.e. before any upstream call can
influence the outcome.  (An identifier missing from the body instead
raises a TypeError that surfaces as a 500 response; see the
counterexample.) -/
theorem c6_invalid_format_gives_400
    (env : ApiEnv) (body : RequestBody) (p1s p2s : String)
    (hb1 : body.player1 = some p1s) (hb2 : body.player2 = some p2s)
    (hbad : (jsSplitHash p1s).getD 0 "" = "" ∨ (jsSplitHash p1s).getD 1 "" = ""
      ∨ (jsSplitHash p2s).getD 0 "" = "" ∨ (jsSplitHash p2s).getD 1 "" = "") :
    handler true env body = .errorResp 400 "Invalid player format. Use: Name#TAG" := by
  have hc : handlerCore env body
      = .ok (.errorResp 400 "Invalid player format. Use: Name#TAG") := by
    simp only [handlerCore, hb1, hb2]
    rw [if_pos hbad]
  simp [handler, hc]

/-- Witness for C6: `player1 = "NoTagHere"` is rejected with the 400
message against a fully failing upstream. -/
theorem c6_invalid_format_gives_400_witness :
    handler true failEnv
        { player1 := some "NoTagHere", player2 := some "Valid#TAG",
          region := "na1", mode := none }
      = .errorResp 400 "Invalid player format. Use: Name#TAG" :=
  c6_invalid_format_gives_400 failEnv
    { player1 := some "NoTagHere", player2 := some "Valid#TAG",
      region := "na1", mode := none }
    "NoTagHere" "Valid#TAG" rfl rfl (by decide)

/-- Counterexample to C6 as stated: a body whose `player1` key is missing
is not answered with the 400 validation response — `player1.split("#")`
throws a TypeError, which the catch block turns into a 500 response. -/
theorem c6_missing_player_counterexample :
    handler true failEnv
        { player1 := none, player2 := some "Valid#TAG", region := "na1", mode := none }
      = .errorResp 500 undefinedSplitMsg
    ∧ handler true failEnv
        { player1 := none, player2 := some "Valid#TAG", region := "na1", mode := none }
      ≠ .errorResp 400 "Invalid player format. Use: Name#TAG" := by
  exact ⟨rfl, by decide⟩

/-- C9: the region router maps each of the eleven known region codes per
the fixed table, and every unknown region code (one that is not a key of
the table) falls back to the default cluster `"americas"` instead of
failing. -/
theorem c9_region_fallback (r : String) (hr : r ∉ regionToRouting.map Prod.fst) :
    routeRegion "na1" = "americas" ∧ routeRegion "br1" = "americas"
    ∧ routeRegion "la1" = "americas" ∧ routeRegion "la2" = "americas"
    ∧ routeRegion "euw1" = "europe" ∧ routeRegion "eun1" = "europe"
    ∧ routeRegion "tr1" = "europe" ∧ routeRegion "ru" = "europe"
    ∧ routeRegion "kr" = "asia" ∧ routeRegion "jp1" = "asia"
    ∧ routeRegion "oc1" = "sea"
    ∧ routeRegion r = "americas" := by
  refine ⟨rfl, rfl, rfl, rfl, rfl, rfl, rfl, rfl, rfl, rfl, rfl, ?_⟩
  unfold routeRegion
  rw [lookup_eq_none_of_not_mem_keys hr]
  rfl

/-- Witness for C9 at the unknown region code `"zz9"`. -/
theorem c9_region_fallback_witness :
    routeRegion "na1" = "americas" ∧ routeRegion "br1" = "americas"
    ∧ routeRegion "la1" = "americas" ∧ routeRegion "la2" = "americas"
    ∧ routeRegion "euw1" = "europe" ∧ routeRegion "eun1" = "europe"
    ∧ routeRegion "tr1" = "europe" ∧ routeRegion "ru" = "europe"
    ∧ routeRegion "kr" = "asia" ∧ routeRegion "jp1" = "asia"
    ∧ routeRegion "oc1" = "sea"
    ∧ routeRegion "zz9" = "americas" :=
  c9_region_fallback "zz9" (by decide)

/-- C10: the `mode` parameter is never rejected — an absent mode defaults
to `"lol"`, and every mode other than `"tft"` (also arbitrary unknown
strings) selects the classic history path segment `"lol"`, the classic
detail endpoint version `"v5"`, the classic projection branch, and makes
the handler behave exactly as for mode `"lol"`. -/
theorem c10_mode_defaults_to_classic (m : String) (hm : m ≠ "tft")
    (k : Bool) (env : ApiEnv) (body : RequestBody) :
    handler k env { body with mode := none } = handler k env { body with mode := some "lol" }
    ∧ gameType m = "lol" ∧ matchVersion m = "v5"
    ∧ (∀ p1 p2 mt, projectMatch m p1 p2 mt = projectLol p1 p2 mt)
    ∧ handler k env { body with mode := some m }
        = handler k env { body with mode := some "lol" } := by
  have hg : gameType m = gameType "lol" := by simp [gameType, hm]
  have hv : matchVersion m = matchVersion "lol" := by simp [matchVersion, hm]
  have hp : projectMatch m = projectMatch "lol" := by
    funext p1 p2 mt
    simp [projectMatch, hm]
  refine ⟨rfl, by simp [gameType, hm], by simp [matchVersion, hm],
    fun p1 p2 mt => by simp [projectMatch, hm], ?_⟩
  unfold handler
  have hc : handlerCore env { body with mode := some m }
      = handlerCore env { body with mode := some "lol" } := by
    simp only [handlerCore, historyFor, detailsFor, Option.getD_some, hg, hv, hp]
  rw [hc]

/-- Witness for C10 at the unknown mode string `"urf"`. -/
theorem c10_mode_defaults_to_classic_witness :
    handler true failEnv { mainBody with mode := none }
        = handler true failEnv { mainBody with mode := some "lol" }
    ∧ gameType "urf" = "lol" ∧ matchVersion "urf" = "v5"
    ∧ (∀ p1 p2 mt, projectMatch "urf" p1 p2 mt = projectLol p1 p2 mt)
    ∧ handler true failEnv { mainBody with mode := some "urf" }
        = handler true failEnv { mainBody with mode := some "lol" } :=
  c10_mode_defaults_to_classic "urf" (by decide) true failEnv mainBody

/-- C7 (amended): the projection copies the timestamp verbatim in both
modes — the summary's timestamp is the raw `gameStartTimestamp` (classic)
resp. `game_datetime` (auto-battler) field, so it is in epoch
milliseconds exactly when the upstream already supplies milliseconds; no
unit conversion happens at the projection boundary. -/
theorem c7_timestamp_passthrough (q1 q2 : String) (mm : RawMatch)
    (info : RawInfo) (parts : List RawParticipant) (md : RawMetadata)
    (hinfo : mm.info = some info) (hparts : info.participants = some parts)
    (hmd : mm.metadata = some md) :
    (∃ s, projectMatch "lol" q1 q2 mm = .ok s
      ∧ summaryTimestamp s = info.gameStartTimestamp)
    ∧ ∃ s, projectMatch "tft" q1 q2 mm = .ok s
      ∧ summaryTimestamp s = info.game_datetime := by
  constructor
  · exact ⟨_, projectLol_eq q1 q2 mm info parts md hinfo hparts hmd, rfl⟩
  · exact ⟨_, projectTft_eq q1 q2 mm info parts md hinfo hparts hmd, rfl⟩

/-- Witness for C7 on a concrete auto-battler record. -/
theorem c7_timestamp_passthrough_witness :
    (∃ s, projectMatch "lol" "PU1" "PU2" sampleTftMatch = .ok s
      ∧ summaryTimestamp s = none)
    ∧ ∃ s, projectMatch "tft" "PU1" "PU2" sampleTftMatch = .ok s
      ∧ summaryTimestamp s = some 5 :=
  c7_timestamp_passthrough "PU1" "PU2" sampleTftMatch
    { gameMode := none
      gameStartTimestamp := none
      gameDuration := none
      tft_set_number := some 11
      game_datetime := some 5
      game_length := some 2000
      participants := some
        [{ puuid := some "PU1", championName := none, teamId := none,
           placement := some 3, traits := some [{ name := some "Sorcerer" }] }] }
    [{ puuid := some "PU1", championName := none, teamId := none,
       placement := some 3, traits := some [{ name := some "Sorcerer" }] }]
    { matchId := none, match_id := some "TFT1" }
    rfl rfl rfl

/-- Counterexample to C7 as stated: the auto-battler projection leaves
`game_datetime = 5` as `5` — had the upstream unit been seconds, the
spec's normalization (`spec_normalizedTimestampMillis`) would demand
`5000`, so no mode-dependent unit normalization takes place at the
projection boundary. -/
theorem c7_no_normalization_counterexample :
    projectMatch "tft" "PU1" "PU2" sampleTftMatch
      = .ok (.tft
        { matchId := some "TFT1"
          gameMode := "Set 11"
          timestamp := some 5
          duration := "33m 20s"
          player1 := { placement := some 3, traits := "Sorcerer" }
          player2 := { placement := none, traits := "N/A" } })
    ∧ spec_normalizedTimestampMillis true 5 = 5000
    ∧ some (5 : Int) ≠ some (spec_normalizedTimestampMillis true 5) := by
  refine ⟨rfl, rfl, by decide⟩

/-- C5 (amended): a match record whose containers (`metadata`, `info`,
`participants`) are present degrades gracefully — a player without a
participants entry (or with absent stat fields) projects to `null`/`"N/A"`
placeholder stats rather than raising, and the whole comparison still
succeeds when every shared match's detail is such a record.  (A record
lacking the containers themselves instead aborts the whole call; see the
counterexample.) -/
theorem c5_placeholder_degradation
    (env : ApiEnv) (body : RequestBody) (p1s p2s : String)
    (account1 account2 : RiotAccount) (h1 h2 : List String)
    (hb1 : body.player1 = some p1s) (hb2 : body.player2 = some p2s)
    (hval : ¬((jsSplitHash p1s).getD 0 "" = "" ∨ (jsSplitHash p1s).getD 1 "" = ""
      ∨ (jsSplitHash p2s).getD 0 "" = "" ∨ (jsSplitHash p2s).getD 1 "" = ""))
    (ha1 : accountByRiotId env ((jsSplitHash p1s).getD 0 "") ((jsSplitHash p1s).getD 1 "")
        body.region = .ok account1)
    (ha2 : accountByRiotId env ((jsSplitHash p2s).getD 0 "") ((jsSplitHash p2s).getD 1 "")
        body.region = .ok account2)
    (hh1 : historyFor env account1.puuid body.region (body.mode.getD "lol") 500 = .ok h1)
    (hh2 : historyFor env account2.puuid body.region (body.mode.getD "lol") 500 = .ok h2)
    (hdet : ∀ id ∈ sharedMatchIds h1 h2,
      ∃ mm info parts md, detailsFor env id body.region (body.mode.getD "lol") = .ok mm
        ∧ mm.info = some info ∧ info.participants = some parts ∧ mm.metadata = some md) :
    (∀ q1 q2 mm info parts md, mm.info = some info → info.participants = some parts →
        mm.metadata = some md → findParticipant q1 parts = none →
        ∃ s, projectLol q1 q2 mm = .ok (.lol s)
          ∧ s.player1 = { champion := none, team := none })
    ∧ (∀ q1 q2 mm info parts md, mm.info = some info → info.participants = some parts →
        mm.metadata = some md → findParticipant q1 parts = none →
        ∃ s, projectTft q1 q2 mm = .ok (.tft s)
          ∧ s.player1 = { placement := none, traits := "N/A" })
    ∧ ∃ d1 d2 ms, handler true env body = .success d1 d2 ms := by
  refine ⟨?_, ?_, ?_⟩
  · intro q1 q2 mm info parts md hinfo hparts hmd hfind
    refine ⟨_, projectLol_eq q1 q2 mm info parts md hinfo hparts hmd, ?_⟩
    simp [hfind]
  · intro q1 q2 mm info parts md hinfo hparts hmd hfind
    refine ⟨_, projectTft_eq q1 q2 mm info parts md hinfo hparts hmd, ?_⟩
    simp [hfind, tftTraitsOf]
  · obtain ⟨sm, hsm⟩ :=
      mapMEx_ok_of_forall (f := fun id => detailsFor env id body.region (body.mode.getD "lol"))
        (l := sharedMatchIds h1 h2)
        (fun id hid => by
          obtain ⟨mm, info, parts, md, hd, _, _, _⟩ := hdet id hid
          exact ⟨mm, hd⟩)
    obtain ⟨ms, hms⟩ :=
      mapMEx_ok_of_forall
        (f := projectMatch (body.mode.getD "lol") account1.puuid account2.puuid)
        (l := sm)
        (fun mm hmm => by
          obtain ⟨id, hid, hdm⟩ := mapMEx_ok_mem hsm hmm
          obtain ⟨mm2, info, parts, md, hd2, hinfo, hparts, hmd⟩ := hdet id hid
          rw [hdm] at hd2
          cases hd2
          unfold projectMatch
          by_cases hmode : (body.mode.getD "lol") = "tft"
          · rw [if_pos hmode]
            exact ⟨_, projectTft_eq _ _ mm info parts md hinfo hparts hmd⟩
          · rw [if_neg hmode]
            exact ⟨_, projectLol_eq _ _ mm info parts md hinfo hparts hmd⟩)
    refine ⟨⟨account1.gameName, account1.tagLine⟩, ⟨account2.gameName, account2.tagLine⟩,
      ms, ?_⟩
    have hc : handlerCore env body
        = .ok (.success ⟨account1.gameName, account1.tagLine⟩
            ⟨account2.gameName, account2.tagLine⟩ ms) := by
      simp only [handlerCore, hb1, hb2]
      rw [if_neg hval]
      simp only [ha1, ha2, hh1, hh2, hsm, hms]
    simp [handler, hc]

/-- Witness for C5: Alice resolves to a puuid that appears in no shared
match's participants array; the comparison still succeeds, and the
placeholder statements hold on the concrete shared record. -/
theorem c5_placeholder_degradation_witness :
    (∀ q1 q2 mm info parts md, mm.info = some info → info.participants = some parts →
        mm.metadata = some md → findParticipant q1 parts = none →
        ∃ s, projectLol q1 q2 mm = .ok (.lol s)
          ∧ s.player1 = { champion := none, team := none })
    ∧ (∀ q1 q2 mm info parts md, mm.info = some info → info.participants = some parts →
        mm.metadata = some md → findParticipant q1 parts = none →
        ∃ s, projectTft q1 q2 mm = .ok (.tft s)
          ∧ s.player1 = { placement := none, traits := "N/A" })
    ∧ ∃ d1 d2 ms, handler true missingEnv mainBody = .success d1 d2 ms :=
  c5_placeholder_degradation missingEnv mainBody "Alice#NA1" "Bob#EUW"
    ⟨"PU9", "Alice", "NA1"⟩ ⟨"PU2", "Bob", "EUW"⟩
    ["A", "B", "C", "D"] ["X", "B", "Y", "D"]
    rfl rfl (by decide) rfl rfl rfl rfl
    (fun id _ => ⟨sampleLolMatch id, _, _, _, rfl, rfl, rfl, rfl⟩)

/-- Counterexample to C5 as stated: a single malformed match record (its
`participants` array absent) does abort the whole batch — the projection
throws and the comparison answers 500 instead of succeeding with
placeholders. -/
theorem c5_malformed_aborts_counterexample :
    handler true badDetailEnv mainBody
      = .errorResp 500 "Cannot read properties of undefined" := by
  rfl

theorem findParticipant_rename (σ : String → String)
    (hinj : ∀ a b, σ a = σ b → a = b) (x : String) :
    ∀ parts : List RawParticipant,
      findParticipant (σ x) (parts.map (renameParticipant σ))
        = (findParticipant x parts).map (renameParticipant σ) := by
  intro parts
  induction parts with
  | nil => rfl
  | cons p t ih =>
    simp only [List.map_cons, findParticipant]
    rcases hp : p.puuid with _ | q
    · rw [if_neg (by simp [renameParticipant, hp]), if_neg (by simp [hp])]
      exact ih
    · by_cases hqx : q = x
      · subst hqx
        rw [if_pos (by simp [renameParticipant, hp]), if_pos (by simp [hp])]
        rfl
      · rw [if_neg ?hL, if_neg (by simp [hp, hqx])]
        · exact ih
        case hL =>
          simp only [renameParticipant, hp, Option.map_some]
          intro h
          exact hqx (hinj q x (by simpa using h))

theorem bind_rename_championName (σ : String → String) (o : Option RawParticipant) :
    ((o.map (renameParticipant σ)).bind fun p => p.championName)
      = o.bind fun p => p.championName := by
  cases o <;> rfl

theorem bind_rename_teamId (σ : String → String) (o : Option RawParticipant) :
    ((o.map (renameParticipant σ)).bind fun p => p.teamId)
      = o.bind fun p => p.teamId := by
  cases o <;> rfl

theorem bind_rename_placement (σ : String → String) (o : Option RawParticipant) :
    ((o.map (renameParticipant σ)).bind fun p => p.placement)
      = o.bind fun p => p.placement := by
  cases o <;> rfl

theorem tftTraitsOf_rename (σ : String → String) (o : Option RawParticipant) :
    tftTraitsOf (o.map (renameParticipant σ)) = tftTraitsOf o := by
  cases o <;> rfl

theorem renameMatch_info_none (σ : String → String) {m : RawMatch}
    (h : m.info = none) : (renameMatch σ m).info = none := by
  simp [renameMatch, h]

theorem projectLol_rename (σ : String → String)
    (hinj : ∀ a b, σ a = σ b → a = b) (p1 p2 : String) (m : RawMatch) :
    projectLol (σ p1) (σ p2) (renameMatch σ m) = projectLol p1 p2 m := by
  rcases hi : m.info with _ | info
  · simp [projectLol, renameMatch, hi, jsGet]
  · rcases hp : info.participants with _ | parts
    · simp [projectLol, renameMatch, hi, hp, jsGet]
    · rcases hmd : m.metadata with _ | md
      · simp [projectLol, renameMatch, hi, hp, hmd, jsGet]
      · have hi2 : (renameMatch σ m).info = some
            { info with participants := some (parts.map (renameParticipant σ)) } := by
          simp [renameMatch, hi, hp]
        have hmd2 : (renameMatch σ m).metadata = some md := by
          simp [renameMatch, hmd]
        rw [projectLol_eq (σ p1) (σ p2) (renameMatch σ m)
              { info with participants := some (parts.map (renameParticipant σ)) }
              (parts.map (renameParticipant σ)) md hi2 rfl hmd2,
            projectLol_eq p1 p2 m info parts md hi hp hmd,
            findParticipant_rename σ hinj p1 parts,
            findParticipant_rename σ hinj p2 parts,
            bind_rename_championName, bind_rename_teamId,
            bind_rename_championName, bind_rename_teamId]

theorem projectTft_rename (σ : String → String)
    (hinj : ∀ a b, σ a = σ b → a = b) (p1 p2 : String) (m : RawMatch) :
    projectTft (σ p1) (σ p2) (renameMatch σ m) = projectTft p1 p2 m := by
  rcases hi : m.info with _ | info
  · simp [projectTft, renameMatch, hi, jsGet]
  · rcases hp : info.participants with _ | parts
    · simp [projectTft, renameMatch, hi, hp, jsGet]
    · rcases hmd : m.metadata with _ | md
      · simp [projectTft, renameMatch, hi, hp, hmd, jsGet]
      · have hi2 : (renameMatch σ m).info = some
            { info with participants := some (parts.map (renameParticipant σ)) } := by
          simp [renameMatch, hi, hp]
        have hmd2 : (renameMatch σ m).metadata = some md := by
          simp [renameMatch, hmd]
        rw [projectTft_eq (σ p1) (σ p2) (renameMatch σ m)
              { info with participants := some (parts.map (renameParticipant σ)) }
              (parts.map (renameParticipant σ)) md hi2 rfl hmd2,
            projectTft_eq p1 p2 m info parts md hi hp hmd,
            findParticipant_rename σ hinj p1 parts,
            findParticipant_rename σ hinj p2 parts,
            bind_rename_placement, bind_rename_placement,
            tftTraitsOf_rename, tftTraitsOf_rename]

theorem projectMatch_rename (σ : String → String)
    (hinj : ∀ a b, σ a = σ b → a = b) (mode p1 p2 : String) (m : RawMatch) :
    projectMatch mode (σ p1) (σ p2) (renameMatch σ m) = projectMatch mode p1 p2 m := by
  unfold projectMatch
  by_cases hmode : mode = "tft"
  · rw [if_pos hmode, if_pos hmode, projectTft_rename σ hinj]
  · rw [if_neg hmode, if_neg hmode, projectLol_rename σ hinj]

/-- C8: puuids are never exposed in the comparison result — renaming every
puuid of the upstream world (resolved accounts, history keys, participant
entries of the fetched records) leaves the handler's response literally
unchanged, so no field of the response carries a puuid; the player fields
are built from `gameName`/`tagLine` only. -/
theorem c8_puuid_never_exposed (σ ρ : String → String) (e : ApiEnv)
    (k : Bool) (body : RequestBody) (hinv : ∀ s, ρ (σ s) = s) :
    handler k (renameEnv σ ρ e) body = handler k e body := by
  have hinj : ∀ a b, σ a = σ b → a = b := by
    intro a b h
    have h2 := congrArg ρ h
    rwa [hinv, hinv] at h2
  unfold handler
  cases k
  · rfl
  · suffices h : handlerCore (renameEnv σ ρ e) body = handlerCore e body by rw [h]
    unfold handlerCore
    rcases hb1 : body.player1 with _ | p1s
    · rfl
    rcases hb2 : body.player2 with _ | p2s
    · rfl
    dsimp only
    by_cases hv : ((jsSplitHash p1s).getD 0 "" = "" ∨ (jsSplitHash p1s).getD 1 "" = ""
        ∨ (jsSplitHash p2s).getD 0 "" = "" ∨ (jsSplitHash p2s).getD 1 "" = "")
    · rw [if_pos hv, if_pos hv]
    rw [if_neg hv, if_neg hv]
    have hacc : ∀ g t, accountByRiotId (renameEnv σ ρ e) g t body.region
        = (accountByRiotId e g t body.region).map (renameAccount σ) := fun g t => rfl
    rw [hacc, hacc]
    rcases ha1 : accountByRiotId e ((jsSplitHash p1s).getD 0 "") ((jsSplitHash p1s).getD 1 "")
        body.region with e1 | a1
    · rfl
    dsimp only [Except.map]
    rcases ha2 : accountByRiotId e ((jsSplitHash p2s).getD 0 "") ((jsSplitHash p2s).getD 1 "")
        body.region with e2 | a2
    · rfl
    dsimp only [Except.map]
    have hhist : ∀ a : RiotAccount,
        historyFor (renameEnv σ ρ e) (renameAccount σ a).puuid body.region
            (body.mode.getD "lol") 500
          = historyFor e a.puuid body.region (body.mode.getD "lol") 500 := by
      intro a
      simp [historyFor, renameEnv, renameAccount, hinv]
    rw [hhist a1, hhist a2]
    rcases hh1 : historyFor e a1.puuid body.region (body.mode.getD "lol") 500 with e3 | h1
    · rfl
    rcases hh2 : historyFor e a2.puuid body.region (body.mode.getD "lol") 500 with e4 | h2
    · rfl
    dsimp only
    have hdet : (fun id => detailsFor (renameEnv σ ρ e) id body.region (body.mode.getD "lol"))
        = fun id => (detailsFor e id body.region (body.mode.getD "lol")).map
            (renameMatch σ) := rfl
    rw [hdet,
      mapMEx_map_right (fun id => detailsFor e id body.region (body.mode.getD "lol"))
        (renameMatch σ) (sharedMatchIds h1 h2)]
    rcases hm1 : mapMEx (fun id => detailsFor e id body.region (body.mode.getD "lol"))
        (sharedMatchIds h1 h2) with e5 | sm
    · rfl
    dsimp only [Except.map]
    rw [mapMEx_comp_map]
    have hproj : (fun mm => projectMatch (body.mode.getD "lol")
          (renameAccount σ a1).puuid (renameAccount σ a2).puuid (renameMatch σ mm))
        = projectMatch (body.mode.getD "lol") a1.puuid a2.puuid := by
      funext mm
      exact projectMatch_rename σ hinj (body.mode.getD "lol") a1.puuid a2.puuid mm
    rw [hproj]
    rcases hm2 : mapMEx (projectMatch (body.mode.getD "lol") a1.puuid a2.puuid) sm
        with e6 | msd
    · rfl
    · rfl

/-- Witness for C8: prefixing every puuid of the concrete shared-match
world with a character leaves the concrete response unchanged. -/
theorem c8_puuid_never_exposed_witness :
    handler true (renameEnv consX dropHead sharedEnv) mainBody
      = handler true sharedEnv mainBody :=
  c8_puuid_never_exposed consX dropHead sharedEnv true mainBody fun _ => rfl

/-- Witness for C4: concrete batches of 100, 100 and 40 ids, and a run
whose second batch is empty. -/
theorem c4_pagination_early_stop_witness :
    getMatchHistory
        [.ok (sampleIds 0 100), .ok (sampleIds 100 100), .ok (sampleIds 200 40)] 500
      = .done (sampleIds 0 100 ++ sampleIds 100 100 ++ sampleIds 200 40)
    ∧ (sampleIds 0 100 ++ sampleIds 100 100 ++ sampleIds 200 40).length = 240
    ∧ getMatchHistoryCalls
        [.ok (sampleIds 0 100), .ok (sampleIds 100 100), .ok (sampleIds 200 40)] 500
      = [(0, 100), (100, 100), (200, 100)]
    ∧ getMatchHistory [.ok (sampleIds 0 100), .ok []] 500 = .done (sampleIds 0 100) :=
  c4_pagination_early_stop (sampleIds 0 100) (sampleIds 100 100) (sampleIds 200 40)
    (sampleIds 0 100)
    (by simp [sampleIds]) (by simp [sampleIds]) (by simp [sampleIds]) (by simp [sampleIds]) []

end RiftReunion
